import Mathlib

/-!
Shallow embedding of the EmergencyBrake crate (src/lib.rs): the sliding-window
circuit breaker EBrake with its operations add_sample, should_trigger, trigger
and trigger_on_sample, together with proofs of the specified properties.
-/

namespace EmergencyBrake

/-- The Trigger enum of src/lib.rs: the action taken when the brake fires. -/
inductive Trigger where
  | Abort : Trigger
  | Panic : Trigger
deriving Repr, DecidableEq

/-- The EBrake struct of src/lib.rs.  The VecDeque is modelled as a list with
the oldest sample first: pop_front removes the head, push_back appends at the
end.  usize counters are modelled as Nat (the Rust code only ever adds or
subtracts 1, and subtraction is shown never to underflow on reachable states). -/
structure EBrake where
  data : List Bool
  failures : Nat
  samples : Nat
  successes : Nat
  tolerance : Nat
deriving Repr, DecidableEq

/-- EBrake::new of src/lib.rs: empty window, zero counters; the capacity hint
passed to VecDeque::with_capacity has no observable effect and is dropped. -/
def EBrake.new (samples tolerance : Nat) : EBrake :=
  { data := [], failures := 0, samples := samples, successes := 0, tolerance := tolerance }

/-- EBrake::default of src/lib.rs: the derived Default impl zero-fills every
field, which coincides with new(0, 0). -/
def EBrake.default : EBrake :=
  { data := [], failures := 0, samples := 0, successes := 0, tolerance := 0 }

/-- EmergencyBrake::add_sample of src/lib.rs, lines 130-145: when the deque
length equals the configured sample count, pop the front element and decrement
the matching counter (popping an empty deque does nothing); then increment the
counter matching the new sample and push it at the back. -/
def EBrake.add_sample (s : EBrake) (sample : Bool) : EBrake :=
  let s1 :=
    if s.data.length = s.samples then
      match s.data with
      | [] => s
      | true :: rest => { s with data := rest, successes := s.successes - 1 }
      | false :: rest => { s with data := rest, failures := s.failures - 1 }
    else s
  match sample with
  | true => { s1 with data := s1.data ++ [true], successes := s1.successes + 1 }
  | false => { s1 with data := s1.data ++ [false], failures := s1.failures + 1 }

/-- EmergencyBrake::should_trigger of src/lib.rs, lines 147-153: false while
the deque holds fewer samples than the tolerance, otherwise true iff the
failure counter strictly exceeds the tolerance. -/
def EBrake.should_trigger (s : EBrake) : Bool :=
  if s.data.length < s.tolerance then false
  else decide (s.tolerance < s.failures)

/-- Result of EmergencyBrake::trigger: either the call returns the boolean
false with the breaker untouched (trigger takes &self, so the state it returns
is the state it was given), or control never returns because the configured
action aborts or panics the process. -/
inductive TriggerOutcome where
  | returned : Bool → EBrake → TriggerOutcome
  | halted : Trigger → TriggerOutcome
deriving Repr, DecidableEq

/-- EmergencyBrake::trigger of src/lib.rs, lines 155-166: evaluate
should_trigger; on true, log and run the fatal action (control never returns);
on false, return false without touching the state. -/
def EBrake.trigger (s : EBrake) (t : Trigger) : TriggerOutcome :=
  match s.should_trigger with
  | true => TriggerOutcome.halted t
  | false => TriggerOutcome.returned false s

/-- EmergencyBrake::trigger_on_sample of src/lib.rs, lines 188-191:
add_sample followed by trigger. -/
def EBrake.trigger_on_sample (s : EBrake) (sample : Bool) (t : Trigger) : TriggerOutcome :=
  (s.add_sample sample).trigger t

/-- Feed a whole sequence of samples, oldest first. -/
def EBrake.run (s : EBrake) (l : List Bool) : EBrake :=
  l.foldl EBrake.add_sample s

/-- A should_trigger call as an observation on the state: the returned boolean
paired with the state the caller holds afterwards (trigger takes &self, so the
state is returned unchanged). -/
def shouldTriggerCall (s : EBrake) : Bool × EBrake :=
  (s.should_trigger, s)

/-- The counter invariant of the spec (section 3): each counter equals the
number of matching samples currently in the window. -/
def Inv (s : EBrake) : Prop :=
  s.failures = s.data.count false ∧ s.successes = s.data.count true

example : (EBrake.new 2 1).run [true, false, true] =
    { data := [false, true], failures := 1, samples := 2, successes := 1, tolerance := 1 } := by
  decide

example : ((EBrake.new 0 0).run [true, true, false]).data = [true, true, false] := by decide

/-! ### Helper lemmas about one add_sample step -/

theorem add_sample_samples (s : EBrake) (b : Bool) : (s.add_sample b).samples = s.samples := by
  cases b <;> simp only [EBrake.add_sample] <;> split <;> (try split) <;> rfl

theorem add_sample_tolerance (s : EBrake) (b : Bool) : (s.add_sample b).tolerance = s.tolerance := by
  cases b <;> simp only [EBrake.add_sample] <;> split <;> (try split) <;> rfl

theorem add_sample_data (s : EBrake) (b : Bool) :
    (s.add_sample b).data = (if s.data.length = s.samples then s.data.tail else s.data) ++ [b] := by
  cases b <;> simp only [EBrake.add_sample] <;> split <;> (try split) <;> simp_all

theorem count_false_add_count_true (l : List Bool) : l.count false + l.count true = l.length := by
  induction l with
  | nil => rfl
  | cons b rest ih => cases b <;> simp [List.count_cons] <;> omega

theorem inv_add_sample (s : EBrake) (b : Bool) (h : Inv s) : Inv (s.add_sample b) := by
  obtain ⟨hf, hs⟩ := h
  cases b <;> simp only [EBrake.add_sample] <;> split <;> (try split) <;>
    simp only [Inv] <;> refine ⟨?_, ?_⟩ <;>
    simp_all [List.count_append, List.count_cons]

theorem inv_new (w t : Nat) : Inv (EBrake.new w t) := ⟨rfl, rfl⟩

theorem inv_run (s : EBrake) (h : Inv s) (l : List Bool) : Inv (s.run l) := by
  induction l generalizing s with
  | nil => exact h
  | cons b rest ih => exact ih (s.add_sample b) (inv_add_sample s b h)

theorem add_sample_length (s : EBrake) (b : Bool) (h1 : 1 ≤ s.samples)
    (h2 : s.data.length ≤ s.samples) : (s.add_sample b).data.length ≤ s.samples := by
  rw [add_sample_data]
  split <;> rename_i h <;> simp [List.length_tail] <;> omega

theorem run_samples (s : EBrake) (l : List Bool) : (s.run l).samples = s.samples := by
  induction l generalizing s with
  | nil => rfl
  | cons b rest ih => exact (ih (s.add_sample b)).trans (add_sample_samples s b)

theorem run_tolerance (s : EBrake) (l : List Bool) : (s.run l).tolerance = s.tolerance := by
  induction l generalizing s with
  | nil => rfl
  | cons b rest ih => exact (ih (s.add_sample b)).trans (add_sample_tolerance s b)

theorem run_length_le (l : List Bool) (s : EBrake) (h1 : 1 ≤ s.samples)
    (h2 : s.data.length ≤ s.samples) : (s.run l).data.length ≤ s.samples := by
  induction l generalizing s with
  | nil => exact h2
  | cons b rest ih =>
      have hs := add_sample_samples s b
      have h3 : (s.add_sample b).data.length ≤ (s.add_sample b).samples := by
        rw [hs]; exact add_sample_length s b h1 h2
      have h4 := ih (s.add_sample b) (by rw [hs]; exact h1) h3
      rw [hs] at h4
      exact h4

theorem run_data_drop (l : List Bool) (s : EBrake) (h1 : 1 ≤ s.samples)
    (h2 : s.data.length ≤ s.samples) :
    (s.run l).data = (s.data ++ l).drop ((s.data ++ l).length - s.samples) := by
  induction l generalizing s with
  | nil =>
      simp only [EBrake.run, List.foldl_nil, List.append_nil]
      rw [Nat.sub_eq_zero_of_le h2, List.drop_zero]
  | cons b rest ih =>
      have hs := add_sample_samples s b
      have hlen : (s.add_sample b).data.length ≤ (s.add_sample b).samples := by
        rw [hs]; exact add_sample_length s b h1 h2
      have key := ih (s.add_sample b) (by rw [hs]; exact h1) hlen
      rw [hs] at key
      show ((s.add_sample b).run rest).data = _
      rw [key, add_sample_data]
      by_cases hfull : s.data.length = s.samples
      · simp only [if_pos hfull]
        obtain ⟨hd, tl, hdt⟩ : ∃ hd tl, s.data = hd :: tl := by
          cases hx : s.data with
          | nil => rw [hx] at hfull; simp at hfull; omega
          | cons a l2 => exact ⟨a, l2, rfl⟩
        rw [hdt] at hfull ⊢
        simp only [List.length_cons] at hfull
        have e1 : ((hd :: tl).tail ++ [b] ++ rest).length - s.samples = rest.length := by
          simp; omega
        have e2 : ((hd :: tl) ++ b :: rest).length - s.samples = rest.length + 1 := by
          simp; omega
        rw [e1, e2]
        simp [List.append_assoc]
      · simp only [if_neg hfull]
        simp [List.append_assoc]

theorem add_sample_data_zero (s : EBrake) (b : Bool) (h : s.samples = 0) :
    (s.add_sample b).data = s.data ++ [b] := by
  rw [add_sample_data]
  split
  · rename_i hlen
    have hnil : s.data = [] := List.eq_nil_of_length_eq_zero (by omega)
    rw [hnil]
    rfl
  · rfl

theorem run_data_zero (l : List Bool) (s : EBrake) (h : s.samples = 0) :
    (s.run l).data = s.data ++ l := by
  induction l generalizing s with
  | nil => simp [EBrake.run]
  | cons b rest ih =>
      have h' : (s.add_sample b).samples = 0 := by rw [add_sample_samples]; exact h
      have h4 := ih (s.add_sample b) h'
      rw [add_sample_data_zero s b h] at h4
      show ((s.add_sample b).run rest).data = _
      rw [h4]
      simp

/-- With a positive window size the deque really is bounded by the configured
size, matching the crate documentation. -/
theorem run_new_length_le (w t : Nat) (l : List Bool) (h : 1 ≤ w) :
    ((EBrake.new w t).run l).data.length ≤ w :=
  run_length_le l (EBrake.new w t) h (by simp [EBrake.new])

/-- With a positive window size the window is the suffix of the fed samples of
length at most the window size, oldest first. -/
theorem run_new_data (w t : Nat) (l : List Bool) (h : 1 ≤ w) :
    ((EBrake.new w t).run l).data = l.drop (l.length - w) := by
  have h2 := run_data_drop l (EBrake.new w t) h (by simp [EBrake.new])
  simpa [EBrake.new] using h2

/-! ### The claims -/

/-- Claim C1: after any sequence of add_sample calls on a breaker built by
new(w, t) or by default(), the failure counter equals the number of false
samples currently in the window, the success counter equals the number of true
samples, and the two counters sum to the window length. -/
theorem claim_C1_counter_invariants (w t : Nat) (l : List Bool) :
    (((EBrake.new w t).run l).failures + ((EBrake.new w t).run l).successes
        = ((EBrake.new w t).run l).data.length
      ∧ ((EBrake.new w t).run l).failures = ((EBrake.new w t).run l).data.count false
      ∧ ((EBrake.new w t).run l).successes = ((EBrake.new w t).run l).data.count true)
    ∧ ((EBrake.default.run l).failures + (EBrake.default.run l).successes
        = (EBrake.default.run l).data.length
      ∧ (EBrake.default.run l).failures = (EBrake.default.run l).data.count false
      ∧ (EBrake.default.run l).successes = (EBrake.default.run l).data.count true) := by
  have hmain : ∀ s : EBrake, Inv s →
      (s.failures + s.successes = s.data.length
        ∧ s.failures = s.data.count false ∧ s.successes = s.data.count true) := by
    rintro s ⟨hf, hsc⟩
    refine ⟨?_, hf, hsc⟩
    rw [hf, hsc, count_false_add_count_true]
  exact ⟨hmain _ (inv_run _ (inv_new w t) l), hmain _ (inv_run _ ⟨rfl, rfl⟩ l)⟩

/-- Claim C2: once the window holds at least the decision threshold of samples
(in the code that threshold is the tolerance), should_trigger is true exactly
when the failure counter strictly exceeds the tolerance; with window_size 25,
tolerance 3 and a full window, 3 failures give false and 4 failures give true. -/
theorem claim_C2_strict_tolerance_comparison :
    (∀ s : EBrake, s.tolerance ≤ s.data.length →
        (s.should_trigger = true ↔ s.tolerance < s.failures))
    ∧ ((EBrake.new 25 3).run (List.replicate 22 true ++ List.replicate 3 false)).should_trigger
        = false
    ∧ ((EBrake.new 25 3).run (List.replicate 21 true ++ List.replicate 4 false)).should_trigger
        = true := by
  refine ⟨?_, by decide, by decide⟩
  intro s h
  rw [EBrake.should_trigger, if_neg (by omega)]
  simp

theorem claim_C2_witness :
    ((EBrake.new 25 3).run (List.replicate 21 true ++ List.replicate 4 false)).tolerance
        ≤ ((EBrake.new 25 3).run (List.replicate 21 true ++ List.replicate 4 false)).data.length
    ∧ (((EBrake.new 25 3).run (List.replicate 21 true ++ List.replicate 4 false)).should_trigger
          = true
        ↔ ((EBrake.new 25 3).run (List.replicate 21 true ++ List.replicate 4 false)).tolerance
            < ((EBrake.new 25 3).run (List.replicate 21 true ++ List.replicate 4 false)).failures) :=
  ⟨by decide, claim_C2_strict_tolerance_comparison.1 _ (by decide)⟩

/-- Claim C3 fails as stated: with window_size 25 and tolerance 3, after only
four failing samples (window far from full) the breaker already triggers,
because the code compares the window length against the tolerance, not against
the window size. -/
theorem claim_C3_counterexample :
    ((EBrake.new 25 3).run [false, false, false, false]).data.length < 25
    ∧ ((EBrake.new 25 3).run [false, false, false, false]).should_trigger = true := by
  decide

/-- Claim C3 amended: should_trigger returns false whenever the window holds
fewer samples than the code's decision threshold, which is the tolerance (not
the window size), regardless of the sample values. -/
theorem claim_C3_below_threshold_no_trigger (s : EBrake) (h : s.data.length < s.tolerance) :
    s.should_trigger = false := by
  rw [EBrake.should_trigger, if_pos h]

theorem claim_C3_witness :
    ((EBrake.new 25 3).run [false]).data.length < ((EBrake.new 25 3).run [false]).tolerance
    ∧ ((EBrake.new 25 3).run [false]).should_trigger = false :=
  ⟨by decide, claim_C3_below_threshold_no_trigger _ (by decide)⟩

/-- Claim C4 is contradicted by the code at window_size 0: the crate doc
promises a circular window of the last N samples, but with samples = 0 the
equality test len == samples only matches before the first push, so the deque
grows past the configured size: one add_sample already gives length 1 > 0, and
further samples keep accumulating. -/
theorem claim_C4_failing_input_eval :
    ((EBrake.new 0 0).run [true]).data.length = 1
    ∧ ((EBrake.new 0 0).run [true, true, true]).data.length = 3 := by
  decide

/-- Claim C5 is contradicted by the code: with the default configuration
(window_size 0, tolerance 0) a single failing sample already makes
should_trigger return true, because the length test len < tolerance never
holds at tolerance 0 and the unbounded-growth slip at samples = 0 keeps every
failure counted forever. -/
theorem claim_C5_failing_input_eval :
    (EBrake.default.run [false]).should_trigger = true
    ∧ ((EBrake.new 0 0).run [false]).should_trigger = true := by
  decide

/-- What the code actually does at window_size 0: the window retains every
sample ever fed, and the breaker triggers exactly when at least one failure
has ever been recorded. -/
theorem run_zero_window_behaviour (l : List Bool) :
    ((EBrake.new 0 0).run l).data = l
    ∧ ((EBrake.new 0 0).run l).should_trigger = decide (0 < l.count false) := by
  have hdata : ((EBrake.new 0 0).run l).data = l := by
    have h := run_data_zero l (EBrake.new 0 0) rfl
    simpa [EBrake.new] using h
  refine ⟨hdata, ?_⟩
  have htol : ((EBrake.new 0 0).run l).tolerance = 0 := run_tolerance (EBrake.new 0 0) l
  obtain ⟨hf, -⟩ := inv_run (EBrake.new 0 0) (inv_new 0 0) l
  rw [EBrake.should_trigger, htol, if_neg (by omega), hf, hdata]

/-- Claim C6 is contradicted by the code at window_size 0: a sequence longer
than the window size should leave only the last window_size samples, but with
samples = 0 the deque keeps everything that was ever inserted. -/
theorem claim_C6_failing_input_eval :
    ((EBrake.new 0 0).run [true]).data = [true]
    ∧ ((EBrake.new 0 0).run [true, false, true]).data = [true, false, true] := by
  decide

/-- Claim C7: on a full window of positive size, with counters consistent with
the window contents, add_sample(false) leaves the failure counter unchanged
when the evicted oldest sample was false; when the oldest sample was true it
increments the failure counter by one and decrements the success counter by
one. -/
theorem claim_C7_eviction_counter_updates (s : EBrake) (hinv : Inv s)
    (hpos : 1 ≤ s.samples) (hfull : s.data.length = s.samples) :
    (s.data.head? = some false → (s.add_sample false).failures = s.failures)
    ∧ (s.data.head? = some true →
        (s.add_sample false).failures = s.failures + 1
        ∧ (s.add_sample false).successes + 1 = s.successes) := by
  obtain ⟨hf, hs⟩ := hinv
  obtain ⟨d, f, n, su, t⟩ := s
  simp only at hf hs hfull hpos ⊢
  cases d with
  | nil => simp at hfull; omega
  | cons a tl =>
      cases a <;> simp_all [EBrake.add_sample, List.count_cons]

theorem claim_C7_witness :
    (((EBrake.new 2 0).run [false, true]).add_sample false).failures
        = ((EBrake.new 2 0).run [false, true]).failures
    ∧ (((EBrake.new 2 0).run [true, false]).add_sample false).failures
        = ((EBrake.new 2 0).run [true, false]).failures + 1
    ∧ (((EBrake.new 2 0).run [true, false]).add_sample false).successes + 1
        = ((EBrake.new 2 0).run [true, false]).successes :=
  ⟨(claim_C7_eviction_counter_updates _ ⟨by decide, by decide⟩ (by decide) (by decide)).1
      (by decide),
   ((claim_C7_eviction_counter_updates _ ⟨by decide, by decide⟩ (by decide) (by decide)).2
      (by decide)).1,
   ((claim_C7_eviction_counter_updates _ ⟨by decide, by decide⟩ (by decide) (by decide)).2
      (by decide)).2⟩

/-- Claim C8: whenever should_trigger is false, trigger returns the boolean
false, does not run the supplied action, and hands the state back unchanged. -/
theorem claim_C8_trigger_no_side_effect (s : EBrake) (t : Trigger)
    (h : s.should_trigger = false) :
    s.trigger t = TriggerOutcome.returned false s := by
  rw [EBrake.trigger, h]

theorem claim_C8_witness :
    (EBrake.new 25 3).should_trigger = false
    ∧ (EBrake.new 25 3).trigger Trigger.Panic
        = TriggerOutcome.returned false (EBrake.new 25 3) :=
  ⟨by decide, claim_C8_trigger_no_side_effect _ Trigger.Panic (by decide)⟩

/-- Claim C9: should_trigger is a pure observation: a call hands the state back
unchanged, and any number of repeated calls without an intervening add_sample
all return the same boolean. -/
theorem claim_C9_should_trigger_pure (s : EBrake) (n : Nat) :
    (shouldTriggerCall s).2 = s
    ∧ Nat.iterate (fun p : Bool × EBrake => shouldTriggerCall p.2) n (shouldTriggerCall s)
        = (s.should_trigger, s) := by
  refine ⟨rfl, ?_⟩
  induction n with
  | zero => rfl
  | succ k ih =>
      rw [Function.iterate_succ_apply]
      exact ih

/-- Claim C10: in every state reachable from new(w, t) or default(), the
eviction decrements inside add_sample cannot underflow: when the front of the
deque is true the success counter is at least 1, and when it is false the
failure counter is at least 1. -/
theorem claim_C10_no_counter_underflow (w t : Nat) (l : List Bool) :
    (((EBrake.new w t).run l).data.head? = some true →
        1 ≤ ((EBrake.new w t).run l).successes)
    ∧ (((EBrake.new w t).run l).data.head? = some false →
        1 ≤ ((EBrake.new w t).run l).failures)
    ∧ ((EBrake.default.run l).data.head? = some true → 1 ≤ (EBrake.default.run l).successes)
    ∧ ((EBrake.default.run l).data.head? = some false → 1 ≤ (EBrake.default.run l).failures) := by
  have key : ∀ s : EBrake, Inv s →
      (s.data.head? = some true → 1 ≤ s.successes)
      ∧ (s.data.head? = some false → 1 ≤ s.failures) := by
    rintro ⟨d, f, n, su, t'⟩ ⟨hf, hs⟩
    cases d with
    | nil => simp
    | cons a tl => cases a <;> simp_all [List.count_cons]
  have k1 := key _ (inv_run _ (inv_new w t) l)
  have k2 := key _ (inv_run EBrake.default ⟨rfl, rfl⟩ l)
  exact ⟨k1.1, k1.2, k2.1, k2.2⟩

theorem claim_C10_witness :
    1 ≤ ((EBrake.new 1 0).run [true]).successes
    ∧ 1 ≤ ((EBrake.new 1 0).run [false]).failures :=
  ⟨(claim_C10_no_counter_underflow 1 0 [true]).1 (by decide),
   (claim_C10_no_counter_underflow 1 0 [false]).2.1 (by decide)⟩

end EmergencyBrake
